import Mathlib

/-!
Verification of the network control & state reconciliation layer of the
adw-network repository.  Rust strings are modelled as Lean `String`
(a wrapper around `List Char` in this toolchain); string primitives used by
the source (`split`, `rsplitn`, `splitn`, `trim`, `to_lowercase`, `contains`,
`lines`, byte length) are given explicit executable models below.  The
external `nmcli` process is modelled by a scripted executor: each subprocess
call consumes the next canned `Out` from a script and records the argument
list it issued in a trace, so call-order and retry protocols become provable
list properties.
-/

namespace AdwNetwork

/-! ### String primitives modelling Rust `str` operations -/

/-- Model of Rust `str::to_lowercase` (exact on ASCII, which is all the
source ever matches against). -/
def lowerStr (s : String) : String := ⟨s.data.map Char.toLower⟩

/-- Model of Rust `str::contains(pat)`: substring occurrence. -/
def strContains (s pat : String) : Bool := decide (pat.data <:+: s.data)

/-- Model of Rust `str::trim` on the character list. -/
def trimChars (l : List Char) : List Char :=
  ((l.dropWhile Char.isWhitespace).reverse.dropWhile Char.isWhitespace).reverse

/-- Model of Rust `str::trim`. -/
def trimStr (s : String) : String := ⟨trimChars s.data⟩

/-- Split a character list at every occurrence of `c`
(Rust `str::split(c)` semantics: `""` yields one empty piece). -/
def splitChar (c : Char) : List Char → List (List Char)
  | [] => [[]]
  | x :: xs =>
    match splitChar c xs with
    | [] => [[]]
    | h :: t => if x = c then [] :: h :: t else (x :: h) :: t

/-- Rust `str::splitn(n, c)`: at most `n` pieces, splitting from the left. -/
def splitnChar (n : Nat) (c : Char) (l : List Char) : List (List Char) :=
  match n with
  | 0 => []
  | 1 => [l]
  | Nat.succ m =>
    match splitChar c l with
    | [] => [l]
    | [x] => [x]
    | x :: _ :: _ =>
      x :: splitnChar m c (l.drop (x.length + 1))

/-- Join pieces with `:` (used to rebuild the left remainder of `rsplitn`). -/
def joinColon : List (List Char) → List Char
  | [] => []
  | [x] => x
  | x :: xs => x ++ ':' :: joinColon xs

/-- Model of Rust `line.rsplitn(6, ':').collect::<Vec<_>>()`:
pieces from the right, the sixth piece being the unsplit left remainder. -/
def rsplitn6 (l : List Char) : List (List Char) :=
  let segs := splitChar ':' l
  if segs.length ≤ 6 then segs.reverse
  else (segs.drop (segs.length - 5)).reverse ++ [joinColon (segs.take (segs.length - 5))]

/-- Strip one trailing carriage return (Rust `lines` behaviour on `\r\n`). -/
def stripCR (l : List Char) : List Char :=
  if l.getLast? = some '\r' then l.dropLast else l

def rustLinesAux : List (List Char) → List (List Char)
  | [] => []
  | [l] => if l = [] then [] else [l]
  | l :: ls => stripCR l :: rustLinesAux ls

/-- Model of Rust `str::lines`. -/
def rustLines (s : String) : List String :=
  (rustLinesAux (splitChar '\n' s.data)).map String.mk

/-- Numeric value of a digit list. -/
def digitsVal (l : List Char) : Nat :=
  l.foldl (fun a c => a * 10 + (c.toNat - 48)) 0

/-- Model of Rust `str::parse::<u8>()`: optional `+`, one or more digits,
value at most 255, otherwise failure. -/
def parseU8 (s : String) : Option Nat :=
  let l := if s.data.head? = some '+' then s.data.tail else s.data
  if l ≠ [] ∧ l.all Char.isDigit then
    if digitsVal l ≤ 255 then some (digitsVal l) else none
  else none

/-- Source `parse_u32_from_str` (nm.rs): keep ASCII digits, parse, default 0
(also 0 when the digit string overflows `u32`). -/
def parse_u32_from_str (s : String) : Nat :=
  let ds := s.data.filter Char.isDigit
  if ds = [] then 0
  else if digitsVal ds < 2 ^ 32 then digitsVal ds else 0

/-! ### Scan model (nm.rs `scan_networks`) -/

structure WifiNetwork where
  ssid : String
  signal : Nat
  secured : Bool
  connected : Bool
  band : String
  channel : Nat
  freq_mhz : Nat
  security_type : String
deriving Repr, DecidableEq

/-- Deduplication key: (SSID, band). -/
def netKey (n : WifiNetwork) : String × String := (n.ssid, n.band)

/-- Body of the per-row processing in `scan_networks` (nm.rs lines 103-154),
given the six fields produced by the right-split. -/
def processRow (freq_str channel_str active_str security signal_str ssid : String) :
    Option WifiNetwork :=
  if ssid.data = [] then none
  else
    let signal := (parseU8 signal_str).getD 0
    let active : Bool := active_str = "yes"
    let secured : Bool := !security.data.isEmpty && security != "--"
    let channel := parse_u32_from_str channel_str
    let freq := parse_u32_from_str freq_str
    let band : String :=
      if 2400 ≤ freq ∧ freq ≤ 2500 then "2.4 GHz"
      else if 4900 ≤ freq ∧ freq ≤ 5900 then "5 GHz"
      else if 5925 ≤ freq ∧ freq ≤ 7125 then "6 GHz"
      else "Unknown"
    let security_type : String :=
      if strContains security "WPA3" then "WPA3"
      else if strContains security "WPA2" then "WPA2"
      else if strContains security "WPA" then "WPA"
      else if strContains security "WEP" then "WEP"
      else if secured then "Secured"
      else "Open"
    some { ssid := ssid, signal := signal, secured := secured, connected := active,
           band := band, channel := channel, freq_mhz := freq,
           security_type := security_type }

/-- One line of `nmcli -t -f SSID,SIGNAL,SECURITY,ACTIVE,CHAN,FREQ dev wifi list`
output: trim, skip empty, right-split into six fields, process. -/
def parseScanLine (line : String) : Option WifiNetwork :=
  let l := trimChars line.data
  if l = [] then none
  else
    match rsplitn6 l with
    | [f, c, a, s, g, ss] => processRow ⟨f⟩ ⟨c⟩ ⟨a⟩ ⟨s⟩ ⟨g⟩ ⟨ss⟩
    | _ => none

/-- The replacement policy of the `HashMap` entry update in `scan_networks`:
a new row replaces the kept one if it is connected and the kept one is not,
or both share connected state and the new row has strictly higher signal. -/
def mergeNet : Option WifiNetwork → WifiNetwork → WifiNetwork
  | none, n => n
  | some e, n =>
    if n.connected && !e.connected then n
    else if (n.connected = e.connected) && e.signal < n.signal then n
    else e

/-- Association-list model of the `networks_by_key` map update.  The Rust
`HashMap` iterates its values in an unspecified order; the properties proved
below (one entry per key, the replacement policy, and the final sort) are
independent of that order, so insertion order is used here. -/
def upsert (m : List ((String × String) × WifiNetwork)) (n : WifiNetwork) :
    List ((String × String) × WifiNetwork) :=
  match m with
  | [] => [(netKey n, n)]
  | (k, e) :: rest =>
    if k = netKey n then (k, mergeNet (some e) n) :: rest
    else (k, e) :: upsert rest n

/-- Lookup of the entry stored under a key in the association-list model. -/
def lookupKey (m : List ((String × String) × WifiNetwork)) (k : String × String) :
    Option WifiNetwork :=
  match m with
  | [] => none
  | (k', e) :: rest => if k' = k then some e else lookupKey rest k

/-- The evolution of a single key's kept entry across a row sequence. -/
def keyAcc (k : String × String) (acc : Option WifiNetwork) (ns : List WifiNetwork) :
    Option WifiNetwork :=
  ns.foldl (fun acc n => if k = netKey n then some (mergeNet acc n) else acc) acc

/-- Domination `domRel a b`: the kept row `b` dominates the duplicate `a` — it is
connected if `a` was, and carries at least `a`'s signal unless it won by
being connected. -/
def domRel (a b : WifiNetwork) : Prop :=
  (a.connected = true → b.connected = true) ∧ (b.connected = false → a.signal ≤ b.signal)

/-- The comparator of the final `sort_by` in `scan_networks`:
connected entries first, then descending signal. -/
def netLE (a b : WifiNetwork) : Bool :=
  if a.connected && !b.connected then true
  else if !a.connected && b.connected then false
  else decide (b.signal ≤ a.signal)

/-- Rows parsed from the raw scan stdout. -/
def parsedRows (txt : String) : List WifiNetwork :=
  (rustLines txt).filterMap parseScanLine

/-- Pure core of `scan_networks` (nm.rs lines 89-182): parse rows, reconcile
duplicates by (SSID, band), sort connected-first then descending signal. -/
def scan_networks (txt : String) : List WifiNetwork :=
  (((parsedRows txt).foldl upsert []).map Prod.snd).mergeSort netLE

/-! ### CIDR decomposition (nm.rs `parse_ipv4_cidr`) -/

/-- Model of Rust `str::split_once('/')`. -/
def splitOnceSlash : List Char → Option (List Char × List Char)
  | [] => none
  | c :: cs =>
    if c = '/' then some ([], cs)
    else match splitOnceSlash cs with
         | some (a, b) => some (c :: a, b)
         | none => none

/-- Dotted-decimal rendering of a 32-bit mask. -/
def maskString (mask : Nat) : String :=
  toString ((mask >>> 24) &&& 255) ++ "." ++ toString ((mask >>> 16) &&& 255) ++ "." ++
    toString ((mask >>> 8) &&& 255) ++ "." ++ toString (mask &&& 255)

/-- The prefix-to-mask step of `parse_ipv4_cidr`: `u8` prefix, reject `>32`,
`!0u32 << (32 - prefix)` with the `0` special case. -/
def cidrOfParts (ip pre : List Char) : Option (String × String) :=
  match parseU8 ⟨pre⟩ with
  | none => none
  | some pfx =>
    if pfx > 32 then none
    else
      let mask : Nat := if pfx = 0 then 0 else ((2 ^ 32 - 1) <<< (32 - pfx)) % 2 ^ 32
      some (⟨ip⟩, maskString mask)

/-- Source `parse_ipv4_cidr` (nm.rs lines 767-786). -/
def parse_ipv4_cidr (cidr : String) : Option (String × String) :=
  match splitOnceSlash (trimChars cidr.data) with
  | none => none
  | some (ip, pre) => cidrOfParts ip pre

/-! ### Error-message classifiers (nm.rs lines 549-578, 606) -/

structure Out where
  stdout : String
  stderr : String
  success : Bool
deriving Repr, DecidableEq

/-- Source `nmcli_error_text`: trimmed stderr if non-empty, else trimmed stdout. -/
def nmcli_error_text (out : Out) : String :=
  let s := trimStr out.stderr
  if s.data ≠ [] then s else trimStr out.stdout

def is_activation_queued (stderr : String) : Bool :=
  let err := lowerStr stderr
  strContains err "activation was enqueued" || strContains err "enqueued"

def is_network_not_found_error (message : String) : Bool :=
  let msg := lowerStr message
  strContains msg "network could not be found" || strContains msg "no network with ssid" ||
    (strContains msg "not found" && strContains msg "ssid")

def is_key_mgmt_missing_error (message : String) : Bool :=
  let msg := lowerStr message
  strContains msg "key-mgmt" && strContains msg "missing"

def is_connection_interrupted_error (message : String) : Bool :=
  let msg := lowerStr message
  strContains msg "base network connection was interrupted" ||
    strContains msg "connection was interrupted"

/-- The inline `already exists` triage on profile add (nm.rs line 606). -/
def is_already_exists_text (stderr : String) : Bool :=
  strContains (lowerStr stderr) "already exists"

/-- Source `key_mgmt_from_security_type` (nm.rs lines 675-687). -/
def key_mgmt_from_security_type : Option String → String
  | none => "wpa-psk"
  | some sec =>
    let s := lowerStr sec
    if strContains s "wpa3" then "sae"
    else if strContains s "wep" then "none"
    else "wpa-psk"

/-! ### Scripted executor

Each subprocess call consumes the next canned response of a script and
records the issued argument list; fixed sleeps of the source are no-ops
for these input/output properties. -/

structure St where
  script : List Out
  trace : List (List String)
deriving Repr, DecidableEq

instance exceptDecEq {ε α : Type} [DecidableEq ε] [DecidableEq α] :
    DecidableEq (Except ε α) := fun a b =>
  match a, b with
  | .ok x, .ok y =>
    if h : x = y then isTrue (by rw [h]) else isFalse (by simp [h])
  | .error x, .error y =>
    if h : x = y then isTrue (by rw [h]) else isFalse (by simp [h])
  | .ok _, .error _ => isFalse (by simp)
  | .error _, .ok _ => isFalse (by simp)

def okOut : Out := ⟨"", "", true⟩

def run1 (args : List String) (st : St) : Out × St :=
  (st.script.headD okOut, ⟨st.script.tail, st.trace ++ [args]⟩)

inductive ConnectStatus
  | Connected
  | Queued
deriving Repr, DecidableEq

/-! ### Connection orchestrator (nm.rs) -/

def connect_open_network_once (ssid : String) (st : St) : Except String ConnectStatus × St :=
  let (out, st) := run1 ["dev", "wifi", "connect", ssid] st
  if out.success then (.ok .Connected, st)
  else
    let err := nmcli_error_text out
    if is_activation_queued err then (.ok .Queued, st) else (.error err, st)

def rescanCmd : List String := ["device", "wifi", "rescan"]

/-- Source `connect_open_network`: retry once (after a rescan side effect) on
interrupted or not-found classifications, otherwise wrap and surface. -/
def connect_open_network (ssid : String) (st : St) : Except String ConnectStatus × St :=
  match connect_open_network_once ssid st with
  | (.ok s, st) => (.ok s, st)
  | (.error err, st) =>
    if is_connection_interrupted_error err then
      let (_, st) := run1 rescanCmd st
      match connect_open_network_once ssid st with
      | (.ok s, st) => (.ok s, st)
      | (.error e, st) => (.error ("Failed to connect: " ++ e), st)
    else if is_network_not_found_error err then
      let (_, st) := run1 rescanCmd st
      match connect_open_network_once ssid st with
      | (.ok s, st) => (.ok s, st)
      | (.error e, st) => (.error ("Failed to connect: " ++ e), st)
    else (.error ("Failed to connect: " ++ err), st)

def connect_secured_network_once (ssid password : String) (st : St) :
    Except String ConnectStatus × St :=
  let (out, st) := run1 ["device", "wifi", "connect", ssid, "password", password] st
  if out.success then (.ok .Connected, st)
  else
    let err := nmcli_error_text out
    if is_activation_queued err then (.ok .Queued, st) else (.error err, st)

/-- Source `activate_saved_connection` (nm.rs lines 482-509): success exit is
`Connected` without reading the output; on failure, an interrupted
classification triggers rescan-and-retry-once, and the queued / fatal
classification always reads the original attempt's message. -/
def activate_saved_connection (ssid : String) (st : St) : Except String ConnectStatus × St :=
  let (out, st) := run1 ["connection", "up", ssid] st
  if out.success then (.ok .Connected, st)
  else
    let err := nmcli_error_text out
    if is_connection_interrupted_error err then
      let (_, st) := run1 rescanCmd st
      let (retry, st) := run1 ["connection", "up", ssid] st
      if retry.success then (.ok .Connected, st)
      else if is_activation_queued err then (.ok .Queued, st)
      else (.error ("Failed to activate connection: " ++ err), st)
    else if is_activation_queued err then (.ok .Queued, st)
    else (.error ("Failed to activate connection: " ++ err), st)

/-- First `DEVICE:TYPE:STATE` row naming an available Wi-Fi device. -/
def findWifiDevice : List String → Option String
  | [] => none
  | l :: ls =>
    let parts := (splitChar ':' l.data).map String.mk
    if parts.length < 3 then findWifiDevice ls
    else if parts.getD 1 "" = "wifi" ∧ parts.getD 2 "" ≠ "unavailable" then some (parts.getD 0 "")
    else findWifiDevice ls

def get_wifi_device (st : St) : Except String String × St :=
  let (out, st) := run1 ["-t", "-f", "DEVICE,TYPE,STATE", "device"] st
  if !out.success then (.error ("Failed to list devices: " ++ nmcli_error_text out), st)
  else match findWifiDevice (rustLines out.stdout) with
       | some d => (.ok d, st)
       | none => (.error "No available Wi-Fi device found", st)

/-- The `connection modify` arguments of the fallback path, keyed off the
security hint (nm.rs lines 611-637). -/
def modifySecurityArgs (ssid password : String) (security_type : Option String) : List String :=
  let key_mgmt := key_mgmt_from_security_type security_type
  if key_mgmt = "none" then
    ["connection", "modify", ssid, "wifi-sec.key-mgmt", "none", "wifi-sec.wep-key0", password]
  else
    ["connection", "modify", ssid, "wifi-sec.key-mgmt", key_mgmt, "wifi-sec.psk", password]

/-- Source `connect_secured_network_with_key_mgmt` (nm.rs lines 580-645):
resolve a Wi-Fi device, add a bare profile (the add result is only logged,
an `already exists` failure is tolerated), set security parameters, then
activate the saved profile. -/
def connect_secured_network_with_key_mgmt (ssid password : String)
    (security_type : Option String) (st : St) : Except String ConnectStatus × St :=
  match get_wifi_device st with
  | (.error e, st) => (.error e, st)
  | (.ok device, st) =>
    let (_addRes, st) :=
      run1 ["connection", "add", "type", "wifi", "ifname", device,
            "con-name", ssid, "ssid", ssid] st
    let (modRes, st) := run1 (modifySecurityArgs ssid password security_type) st
    if !modRes.success then (.error ("Failed to set security: " ++ nmcli_error_text modRes), st)
    else activate_saved_connection ssid st

/-- Source `connect_secured_network` (nm.rs lines 448-480). -/
def connect_secured_network (ssid password : String) (security_type : Option String)
    (st : St) : Except String ConnectStatus × St :=
  match connect_secured_network_once ssid password st with
  | (.ok s, st) => (.ok s, st)
  | (.error err, st) =>
    if is_key_mgmt_missing_error err then
      connect_secured_network_with_key_mgmt ssid password security_type st
    else if is_connection_interrupted_error err then
      let (_, st) := run1 rescanCmd st
      match connect_secured_network_once ssid password st with
      | (.ok s, st) => (.ok s, st)
      | (.error e, st) => (.error ("Failed to connect: " ++ e), st)
    else if is_network_not_found_error err then
      let (_, st) := run1 rescanCmd st
      match connect_secured_network_once ssid password st with
      | (.ok s, st) => (.ok s, st)
      | (.error e, st) => (.error ("Failed to connect: " ++ e), st)
    else (.error ("Failed to connect: " ++ err), st)

/-! ### Hotspot configuration (config.rs `HotspotConfig`) -/

structure HotspotConfig where
  ssid : String
  password : String
  band : String
  channel : String
  hidden : Bool
deriving Repr, DecidableEq

/-- UTF-8 byte width of one character. -/
def charBytes (c : Char) : Nat :=
  if c.toNat ≤ 0x7F then 1
  else if c.toNat ≤ 0x7FF then 2
  else if c.toNat ≤ 0xFFFF then 3
  else 4

/-- Rust `str::len` (UTF-8 byte length). -/
def rustLen (s : String) : Nat := (s.data.map charBytes).sum

/-- Rust `char::is_ascii`. -/
def rustIsAscii (c : Char) : Bool := c.toNat ≤ 0x7F

/-- Rust `char::is_ascii_control`. -/
def rustIsAsciiControl (c : Char) : Bool := c.toNat ≤ 0x1F || c.toNat = 0x7F

/-- Source `HotspotConfig::validate_ssid` (config.rs lines 71-81). -/
def validate_ssid (c : HotspotConfig) : Except String Unit :=
  if c.ssid.data = [] ∨ rustLen c.ssid > 32 then .error "SSID must be 1-32 characters"
  else if ¬ c.ssid.data.all (fun ch => rustIsAscii ch && !rustIsAsciiControl ch) then
    .error "SSID contains invalid characters"
  else .ok ()

/-- Source `HotspotConfig::validate_password` (config.rs lines 83-93). -/
def validate_password (c : HotspotConfig) : Except String Unit :=
  if c.password.data ≠ [] ∧ (rustLen c.password < 8 ∨ rustLen c.password > 63) then
    .error "Password must be 8-63 characters or empty for open network"
  else if ¬ c.password.data.all (fun ch => rustIsAscii ch && !rustIsAsciiControl ch) then
    .error "Password contains invalid characters"
  else .ok ()

/-- Source `HotspotConfig::validate`. -/
def validate (c : HotspotConfig) : Except String Unit :=
  match validate_ssid c with
  | .error e => .error e
  | .ok () => validate_password c

/-! ### Hotspot lifecycle (hotspot.rs) -/

def band_to_nmcli (band : String) : String :=
  if band = "2.4 GHz" then "bg" else if band = "5 GHz" then "a" else "bg"

def hotspot_connection_exists (st : St) : Bool × St :=
  let (out, st) := run1 ["-t", "-f", "NAME", "connection", "show"] st
  ((rustLines out.stdout).any (fun l => trimStr l = "Hotspot"), st)

/-- One iteration of the `cleanup_shared_connections` loop. -/
def cleanupLine (st : St) (line : String) : St :=
  let parts := (splitnChar 2 ':' line.data).map String.mk
  if parts.length = 2 then
    let conn_name := parts.getD 0 ""
    let conn_type := parts.getD 1 ""
    if strContains conn_type "wireless" = false ∨ conn_name = "Hotspot" then st
    else
      let (detail, st) := run1 ["-t", "-f", "ipv4.method,wifi.mode", "connection", "show", conn_name] st
      if strContains detail.stdout "shared" || strContains detail.stdout "ap" then
        (run1 ["connection", "down", conn_name] st).2
      else st
  else st

/-- Source `cleanup_shared_connections` (hotspot.rs lines 23-66); its own
failures are ignored by design, so the model returns only the state. -/
def cleanup_shared_connections (st : St) : St :=
  let (out, st) := run1 ["-t", "-f", "NAME,TYPE", "connection", "show", "--active"] st
  (rustLines out.stdout).foldl cleanupLine st

/-- One iteration of the `disconnect_wifi_on_interface` loop.  The
`disconnected_any` flag of the source only lengthens a sleep. -/
def disconnectLine (iface : String) (st : St) (line : String) : St :=
  let parts := (splitnChar 3 ':' line.data).map String.mk
  if parts.length ≥ 3 then
    let conn_name := parts.getD 0 ""
    let device := parts.getD 1 ""
    let conn_type := parts.getD 2 ""
    if device ≠ iface ∨ strContains conn_type "wireless" = false then st
    else if conn_name = "Hotspot" then st
    else (run1 ["connection", "down", conn_name] st).2
  else st

/-- Source `disconnect_wifi_on_interface` (hotspot.rs lines 113-159). -/
def disconnect_wifi_on_interface (iface : String) (st : St) : St :=
  let (out, st) := run1 ["-t", "-f", "NAME,DEVICE,TYPE", "connection", "show", "--active"] st
  (rustLines out.stdout).foldl (disconnectLine iface) st

/-- The line scan of `check_device_exists`: first row naming `iface` decides. -/
def checkDeviceLines (iface : String) : List String → Except String Unit
  | [] => .error ("WiFi device " ++ iface ++ " not found")
  | l :: ls =>
    let parts := (splitnChar 2 ':' l.data).map String.mk
    if parts.length ≥ 2 ∧ parts.getD 0 "" = iface then
      let device_type := trimStr (parts.getD 1 "")
      if device_type ≠ "wifi" then
        .error ("Device " ++ iface ++ " is not a WiFi device (type: " ++ device_type ++ ")")
      else .ok ()
    else checkDeviceLines iface ls

/-- Source `check_device_exists` (hotspot.rs lines 161-187). -/
def check_device_exists (iface : String) (st : St) : Except String Unit × St :=
  let (out, st) := run1 ["-t", "-f", "DEVICE,TYPE", "device", "status"] st
  (checkDeviceLines iface (rustLines out.stdout), st)

/-- Arguments of the fast `dev wifi hotspot` creation path. -/
def hotspotFastArgs (config : HotspotConfig) (iface : String) : List String :=
  ["dev", "wifi", "hotspot", "ifname", iface, "con-name", "Hotspot", "ssid", config.ssid]
    ++ (if config.password ≠ "" then ["password", config.password] else [])
    ++ (if config.band ≠ "Auto" then ["band", band_to_nmcli config.band] else [])

/-- Arguments of the manual `connection add` fallback path. -/
def hotspotManualArgs (config : HotspotConfig) (iface : String) : List String :=
  ["connection", "add", "type", "wifi", "ifname", iface, "con-name", "Hotspot",
   "autoconnect", "no", "ssid", config.ssid, "mode", "ap", "ipv4.method", "shared",
   "ipv4.addresses", "192.168.50.1/24", "ipv6.method", "disabled"]
    ++ (if config.password ≠ "" then
          ["wifi-sec.key-mgmt", "wpa-psk", "wifi-sec.psk", config.password] else [])
    ++ (if config.band ≠ "Auto" then ["wifi.band", band_to_nmcli config.band] else [])
    ++ (if config.channel ≠ "Auto" then ["wifi.channel", config.channel] else [])
    ++ (if config.hidden then ["wifi.hidden", "yes"] else [])

/-- Source `add_hotspot` (hotspot.rs lines 189-294): fast path first, manual
fallback on failure. -/
def add_hotspot (config : HotspotConfig) (iface : String) (st : St) :
    Except String Unit × St :=
  let (out, st) := run1 (hotspotFastArgs config iface) st
  if out.success then
    let (_, st) := run1 ["connection", "modify", "Hotspot", "autoconnect", "no"] st
    let st := if config.hidden then
                (run1 ["connection", "modify", "Hotspot", "wifi.hidden", "yes"] st).2
              else st
    (.ok (), st)
  else
    let (out2, st) := run1 (hotspotManualArgs config iface) st
    if !out2.success then (.error ("Failed to add hotspot: " ++ out2.stderr), st)
    else (.ok (), st)

/-- First `NAME:STATE` row for the `Hotspot` profile. -/
def findHotspotState : List String → Option String
  | [] => none
  | l :: ls =>
    let parts := (splitnChar 2 ':' l.data).map String.mk
    if parts.length = 2 ∧ parts.getD 0 "" = "Hotspot" then some (parts.getD 1 "")
    else findHotspotState ls

/-- Source `is_hotspot_active` (hotspot.rs lines 367-383). -/
def is_hotspot_active (st : St) : Bool × St :=
  let (out, st) := run1 ["-t", "-f", "NAME,STATE", "connection", "show", "--active"] st
  (match findHotspotState (rustLines out.stdout) with
   | some state => trimStr state = "activated"
   | none => false,
   st)

/-- Source `activate_hotspot_fast` (hotspot.rs lines 296-336): activate,
verify by read-back, wait-and-retry once, verify again. -/
def activate_hotspot_fast (st : St) : Except String Unit × St :=
  let (r1, st) := run1 ["connection", "up", "Hotspot"] st
  let (done, st) := if r1.success then is_hotspot_active st else (false, st)
  if done then (.ok (), st)
  else
    let (r2, st) := run1 ["connection", "up", "Hotspot"] st
    if !r2.success then (.error ("Failed to activate hotspot: " ++ r2.stderr), st)
    else
      let (active2, st) := is_hotspot_active st
      if active2 then (.ok (), st)
      else (.error "Hotspot activation completed but not active", st)

/-- Source `stop_hotspot` (hotspot.rs lines 338-365): best-effort deactivate,
then delete; only the delete's exact-case `Error: unknown connection` text is
tolerated. -/
def stop_hotspot (st : St) : Except String Unit × St :=
  let (_, st) := run1 ["connection", "down", "Hotspot"] st
  let (out, st) := run1 ["connection", "delete", "Hotspot"] st
  if !out.success ∧ strContains out.stderr "Error: unknown connection" = false then
    (.error ("Failed to delete hotspot: " ++ out.stderr), st)
  else (.ok (), st)

/-- The tail of `create_hotspot_on` after profile creation: propagate an add
failure, else poll the active state and activate only when needed
(hotspot.rs lines 100-110). -/
def finishCreate (r : Except String Unit × St) : Except String Unit × St :=
  match r with
  | (.error e, st) => (.error e, st)
  | (.ok _, st) =>
    let (active, st) := is_hotspot_active st
    if active then (.ok (), st) else activate_hotspot_fast st

/-- Source `create_hotspot_on` (hotspot.rs lines 76-111). -/
def create_hotspot_on (config : HotspotConfig) (iface : String) (st : St) :
    Except String Unit × St :=
  match validate config with
  | .error e => (.error e, st)
  | .ok () =>
    match check_device_exists iface st with
    | (.error e, st) => (.error e, st)
    | (.ok (), st) =>
      let st := disconnect_wifi_on_interface iface st
      let st := cleanup_shared_connections st
      let (hasProfile, st) := hotspot_connection_exists st
      let st := if hasProfile then (stop_hotspot st).2 else st
      finishCreate (add_hotspot config iface st)

/-- A create command: the fast `dev wifi hotspot` form or `connection add`. -/
def isCreateCmd (args : List String) : Bool :=
  args.take 3 = ["dev", "wifi", "hotspot"] || args.take 2 = ["connection", "add"]

def deleteHotspotCmd : List String := ["connection", "delete", "Hotspot"]

/-! ### Connected-device discovery (ui/devices_page.rs) -/

structure ConnectedDevice where
  ip : String
  mac : String
  hostname : Option String
  lease_expiry : Option Int
deriving Repr, DecidableEq

/-- Rust `str::split_whitespace`. -/
def splitWs : List Char → List (List Char)
  | [] => []
  | c :: cs =>
    let r := splitWs cs
    if c.isWhitespace then r
    else match cs with
         | [] => [[c]]
         | d :: _ =>
           if d.isWhitespace then [c] :: r
           else match r with
                | [] => [[c]]
                | w :: ws => (c :: w) :: ws

def strEndsWith (s suffix : String) : Bool := decide (suffix.data <:+ s.data)

def strStartsWith (s pre : String) : Bool := decide (pre.data <+: s.data)

/-- Rust `str::parse::<i64>()`. -/
def parse_lease_expiry (s : String) : Option Int :=
  let neg : Bool := s.data.head? = some '-'
  let l := if s.data.head? = some '+' ∨ s.data.head? = some '-' then s.data.tail else s.data
  if l ≠ [] ∧ l.all Char.isDigit then
    let v : Int := if neg then -(Int.ofNat (digitsVal l)) else Int.ofNat (digitsVal l)
    if -(2 ^ 63) ≤ v ∧ v ≤ 2 ^ 63 - 1 then some v else none
  else none

/-- One line of the dnsmasq lease format `timestamp mac ip hostname`
(ui/devices_page.rs `parse_lease_content`, lines 689-723): gateway-suffixed
IPs are skipped, `*` means no hostname. -/
def leaseLineDevice (line : String) : Option ConnectedDevice :=
  let l := trimChars line.data
  if l = [] then none
  else
    let parts := (splitWs l).map String.mk
    if parts.length < 3 then none
    else
      let mac := parts.getD 1 ""
      let ip := parts.getD 2 ""
      if strEndsWith ip ".1" || strEndsWith ip ".0" then none
      else
        some { ip := ip, mac := mac,
               hostname := if parts.length > 3 ∧ parts.getD 3 "" ≠ "*" then
                             some (parts.getD 3 "")
                           else none,
               lease_expiry := parse_lease_expiry (parts.getD 0 "") }

/-- Source `parse_lease_content` (devices page): one pushed device per
qualifying line, in order. -/
def parse_lease_content (content : String) : List ConnectedDevice :=
  (rustLines content).filterMap leaseLineDevice

/-- One line of `ip neigh show` output in `get_connected_devices`
(ui/devices_page.rs lines 229-260); `hostnameOf` stands for the
`get_hostname_for_ip` subprocess lookup. -/
def arpLineDevice (hostnameOf : String → Option String) (line : String) :
    Option ConnectedDevice :=
  let parts := (splitWs line.data).map String.mk
  if parts.length < 5 then none
  else
    let ip := parts.getD 0 ""
    match parts.findIdx? (· == "lladdr") with
    | none => none
    | some idx =>
      if idx + 1 < parts.length then
        let mac := parts.getD (idx + 1) ""
        if !strEndsWith ip ".1" && !strEndsWith ip ".0" && !strStartsWith ip "fe80" then
          some { ip := ip, mac := mac, hostname := hostnameOf ip, lease_expiry := none }
        else none
      else none

def arpDevices (hostnameOf : String → Option String) (stdout : String) :
    List ConnectedDevice :=
  (rustLines stdout).filterMap (arpLineDevice hostnameOf)

/-- The fallback-path loop of `get_devices_from_leases`: first lease file
whose parse yields any devices wins. -/
def leasesFromFallback : List String → List ConnectedDevice
  | [] => []
  | c :: cs =>
    let ds := parse_lease_content c
    if ds = [] then leasesFromFallback cs else ds

/-- Source `get_devices_from_leases` (ui/devices_page.rs lines 272-313):
all NetworkManager dnsmasq lease files are parsed into one vector; fallback
paths are consulted only if that yields nothing. -/
def get_devices_from_leases (nmContents fallbackContents : List String) :
    List ConnectedDevice :=
  let ds := (nmContents.map parse_lease_content).flatten
  if ds ≠ [] then ds else leasesFromFallback fallbackContents

/-- Source `get_connected_devices` (ui/devices_page.rs lines 225-270): the
ARP table, else the lease-file fallback.  `arpStdout` is the `ip neigh show`
output, `nmContents`/`fallbackContents` the lease-file texts. -/
def get_connected_devices (hostnameOf : String → Option String) (arpStdout : String)
    (nmContents fallbackContents : List String) : List ConnectedDevice :=
  let ds := arpDevices hostnameOf arpStdout
  if ds = [] then get_devices_from_leases nmContents fallbackContents else ds

/-- The identity of a connected device for the spec's deduplication claim:
the MAC address, with the IP as fallback. -/
def identityOf (d : ConnectedDevice) : String :=
  if d.mac = "" then d.ip else d.mac

/-- Two strings differing only in letter case (on the ASCII alphabet this is
exactly Rust's case folding). -/
def caseVariant (s t : String) : Prop :=
  s.data.map Char.toLower = t.data.map Char.toLower

/-! ## Theorems -/

/-- C5: a failed direct open-connect whose triaged error text contains
`enqueued` (in particular the full `activation was enqueued` phrase) is
reinterpreted as `ConnectStatus.Queued`, not surfaced as an error. -/
theorem connect_open_queued (ssid : String) (out : Out) (rest : List Out)
    (tr : List (List String)) (hfail : out.success = false)
    (hq : strContains (lowerStr (nmcli_error_text out)) "enqueued" = true) :
    (connect_open_network ssid ⟨out :: rest, tr⟩).1 = .ok .Queued := by
  have hque : is_activation_queued (nmcli_error_text out) = true := by
    simp [is_activation_queued, hq]
  simp [connect_open_network, connect_open_network_once, run1, hfail, hque]

/-- Witness for C5 at a concrete simulated executor response. -/
theorem connect_open_queued_witness :
    ((⟨"", "Error: Connection activation was enqueued", false⟩ : Out).success = false)
    ∧ strContains
        (lowerStr (nmcli_error_text ⟨"", "Error: Connection activation was enqueued", false⟩))
        "enqueued" = true
    ∧ (connect_open_network "CoffeeShort"
        ⟨[⟨"", "Error: Connection activation was enqueued", false⟩], []⟩).1 = .ok .Queued :=
  ⟨rfl, by decide, connect_open_queued "CoffeeShort" _ [] [] rfl (by decide)⟩

/-- C10: `activate_saved_connection` returns `Connected` on any success exit
without reading the output text; on a failed attempt classified as
interrupted whose retry also fails, the message that is classified (queued
check) and surfaced is the original attempt's, not the retry's. -/
theorem activate_saved_semantics :
    (∀ (ssid : String) (out : Out) (rest : List Out) (tr : List (List String)),
       out.success = true →
       activate_saved_connection ssid ⟨out :: rest, tr⟩ =
         (.ok .Connected, ⟨rest, tr ++ [["connection", "up", ssid]]⟩))
    ∧ (∀ (ssid : String) (out1 r1 out2 : Out) (rest : List Out) (tr : List (List String)),
        out1.success = false →
        is_connection_interrupted_error (nmcli_error_text out1) = true →
        out2.success = false →
        is_activation_queued (nmcli_error_text out1) = false →
        (activate_saved_connection ssid ⟨out1 :: r1 :: out2 :: rest, tr⟩).1 =
          .error ("Failed to activate connection: " ++ nmcli_error_text out1))
    ∧ (∀ (ssid : String) (out1 r1 out2 : Out) (rest : List Out) (tr : List (List String)),
        out1.success = false →
        is_connection_interrupted_error (nmcli_error_text out1) = true →
        out2.success = false →
        is_activation_queued (nmcli_error_text out1) = true →
        (activate_saved_connection ssid ⟨out1 :: r1 :: out2 :: rest, tr⟩).1 = .ok .Queued) := by
  refine ⟨?_, ?_, ?_⟩ <;> intros <;>
    simp [activate_saved_connection, run1, *]

/-- Witness for C10: a success exit carrying an `enqueued` message still
yields `Connected`, and a failed interrupted retry surfaces the first
attempt's message rather than the retry's. -/
theorem activate_saved_semantics_witness :
    activate_saved_connection "Home"
        ⟨[⟨"Connection activation was enqueued", "", true⟩], []⟩ =
      (.ok .Connected, ⟨[], [["connection", "up", "Home"]]⟩)
    ∧ (activate_saved_connection "Home"
        ⟨[⟨"", "Error: the base network connection was interrupted", false⟩, okOut,
          ⟨"", "Error: some entirely different failure", false⟩], []⟩).1 =
      .error "Failed to activate connection: Error: the base network connection was interrupted" :=
  ⟨activate_saved_semantics.1 "Home" _ [] [] rfl,
   (activate_saved_semantics.2.1 "Home" _ okOut _ [] [] rfl (by decide) rfl (by decide)).trans
     (congrArg Except.error (by decide))⟩

/-- C4: a failed direct secured connect classified as `key-mgmt ... missing`
is never surfaced; the call becomes exactly the fallback
`connect_secured_network_with_key_mgmt`, whose protocol (once a Wi-Fi
device resolves and modify/activate succeed) is: list devices, add a bare
profile for the SSID (its result only logged, so an `already exists`
failure is tolerated), modify with security parameters derived from the
hint, then activate the saved profile; and the hint mapping is the pure
function WPA3 → `sae`, WEP → `none` (WEP key slot), anything else or no
hint → `wpa-psk` (pre-shared key). -/
theorem connect_secured_key_mgmt_fallback :
    (∀ (ssid pw : String) (hint : Option String) (out : Out) (rest : List Out)
       (tr : List (List String)),
       out.success = false →
       is_activation_queued (nmcli_error_text out) = false →
       is_key_mgmt_missing_error (nmcli_error_text out) = true →
       connect_secured_network ssid pw hint ⟨out :: rest, tr⟩ =
         connect_secured_network_with_key_mgmt ssid pw hint
           ⟨rest, tr ++ [["device", "wifi", "connect", ssid, "password", pw]]⟩)
    ∧ (∀ hint : String,
        (strContains (lowerStr hint) "wpa3" = true →
          key_mgmt_from_security_type (some hint) = "sae")
        ∧ (strContains (lowerStr hint) "wpa3" = false →
            strContains (lowerStr hint) "wep" = true →
            key_mgmt_from_security_type (some hint) = "none")
        ∧ (strContains (lowerStr hint) "wpa3" = false →
            strContains (lowerStr hint) "wep" = false →
            key_mgmt_from_security_type (some hint) = "wpa-psk"))
    ∧ key_mgmt_from_security_type none = "wpa-psk"
    ∧ (∀ (ssid pw : String) (hint : Option String) (devOut addOut modOut upOut : Out)
         (rest : List Out) (tr : List (List String)) (d : String),
        devOut.success = true →
        findWifiDevice (rustLines devOut.stdout) = some d →
        modOut.success = true → upOut.success = true →
        connect_secured_network_with_key_mgmt ssid pw hint
          ⟨devOut :: addOut :: modOut :: upOut :: rest, tr⟩ =
          (.ok .Connected,
           ⟨rest,
            tr ++ [["-t", "-f", "DEVICE,TYPE,STATE", "device"],
                   ["connection", "add", "type", "wifi", "ifname", d, "con-name", ssid,
                    "ssid", ssid],
                   modifySecurityArgs ssid pw hint,
                   ["connection", "up", ssid]]⟩)) := by
  refine ⟨?_, ?_, rfl, ?_⟩
  · intro ssid pw hint out rest tr hfail hnq hkm
    simp [connect_secured_network, connect_secured_network_once, run1, hfail, hkm, hnq]
  · intro hint
    refine ⟨fun h => by simp [key_mgmt_from_security_type, h],
            fun h1 h2 => by simp [key_mgmt_from_security_type, h1, h2],
            fun h1 h2 => by simp [key_mgmt_from_security_type, h1, h2]⟩
  · intro ssid pw hint devOut addOut modOut upOut rest tr d hdev hfind hmod hup
    simp [connect_secured_network_with_key_mgmt, get_wifi_device, run1, hdev, hfind, hmod,
      hup, activate_saved_connection]

/-- Witness for C4: a simulated `key-mgmt ... missing` failure drives the
full fallback command sequence and ends `Connected`, with the WPA3 hint
mapped to `sae`. -/
theorem connect_secured_key_mgmt_fallback_witness :
    connect_secured_network "Lab" "hunter2secret" (some "WPA3")
        ⟨[⟨"", "Error: 802-11-wireless-security.key-mgmt: property is missing", false⟩,
          ⟨"wlan0:wifi:disconnected\n", "", true⟩,
          ⟨"", "Error: a connection with this name already exists", false⟩,
          okOut, okOut], []⟩ =
      (.ok .Connected,
       ⟨[], [["device", "wifi", "connect", "Lab", "password", "hunter2secret"],
             ["-t", "-f", "DEVICE,TYPE,STATE", "device"],
             ["connection", "add", "type", "wifi", "ifname", "wlan0", "con-name", "Lab",
              "ssid", "Lab"],
             ["connection", "modify", "Lab", "wifi-sec.key-mgmt", "sae", "wifi-sec.psk",
              "hunter2secret"],
             ["connection", "up", "Lab"]]⟩) :=
  (connect_secured_key_mgmt_fallback.1 "Lab" "hunter2secret" (some "WPA3") _ _ []
      rfl (by decide) (by decide)).trans
    ((connect_secured_key_mgmt_fallback.2.2.2 "Lab" "hunter2secret" (some "WPA3") _ _ okOut okOut
        [] _ "wlan0" rfl (by decide) rfl rfl).trans (by decide))

/-- Not whitespace, for any decimal digit. -/
theorem isDigit_not_ws {c : Char} (h : c.isDigit = true) : c.isWhitespace = false := by
  by_contra hw
  have hw' : c.isWhitespace = true := by
    cases hws : c.isWhitespace
    · exact absurd hws hw
    · rfl
  have h4 : ((c = ' ' ∨ c = '\t') ∨ c = '\x0d') ∨ c = '\n' := by
    simpa [Char.isWhitespace] using hw'
  rcases h4 with ((h' | h') | h') | h' <;> subst h' <;> simp at h

/-- The characters accepted by `parseU8`: an optional leading `+`, digits. -/
theorem parseU8_chars {s : String} {p : Nat} (h : parseU8 s = some p) :
    ∀ c ∈ s.data, c = '+' ∨ c.isDigit = true := by
  simp only [parseU8] at h
  split at h
  · rename_i hp
    split at h
    · rename_i hcond
      have hall : ∀ c ∈ s.data.tail, c.isDigit = true := fun c hc => by
        simpa using List.all_eq_true.mp hcond.2 c hc
      intro c hc
      cases hs : s.data with
      | nil => rw [hs] at hc; simp at hc
      | cons a as =>
        have ha : a = '+' := by rw [hs] at hp; simpa using hp
        rw [hs] at hc
        rcases List.mem_cons.mp hc with rfl | h1
        · exact Or.inl ha
        · refine Or.inr (hall c ?_)
          rw [hs]
          exact h1
    · simp at h
  · split at h
    · rename_i hcond
      intro c hc
      exact Or.inr (by simpa using List.all_eq_true.mp hcond.2 c hc)
    · simp at h

/-- Trimming is the identity on whitespace-free lists. -/
theorem trimChars_no_ws (l : List Char) (h : ∀ c ∈ l, c.isWhitespace = false) :
    trimChars l = l := by
  unfold trimChars
  have h1 : l.dropWhile Char.isWhitespace = l := by
    cases l with
    | nil => rfl
    | cons c cs => simp [List.dropWhile, h c (List.mem_cons_self c cs)]
  rw [h1]
  have h2 : l.reverse.dropWhile Char.isWhitespace = l.reverse := by
    cases hr : l.reverse with
    | nil => rfl
    | cons c cs =>
      have hm : c ∈ l := by
        have : c ∈ l.reverse := hr ▸ List.mem_cons_self c cs
        simpa using this
      simp [List.dropWhile, h c hm]
  rw [h2, List.reverse_reverse]

/-- Splitting once at a slash finds the first slash. -/
theorem splitOnceSlash_append (l₁ l₂ : List Char) (h : '/' ∉ l₁) :
    splitOnceSlash (l₁ ++ '/' :: l₂) = some (l₁, l₂) := by
  induction l₁ with
  | nil => simp [splitOnceSlash]
  | cons c cs ih =>
    have hc : ¬ c = '/' := fun e => h (e ▸ List.mem_cons_self c cs)
    have ih' := ih (fun hm => h (List.mem_cons_of_mem _ hm))
    show splitOnceSlash (c :: (cs ++ '/' :: l₂)) = _
    rw [splitOnceSlash, if_neg hc, ih']

/-- Reduction of `parse_ipv4_cidr` once the slash split is known. -/
theorem parse_ipv4_cidr_split {cidr : String} {ip pre : List Char}
    (h : splitOnceSlash (trimChars cidr.data) = some (ip, pre)) :
    parse_ipv4_cidr cidr = cidrOfParts ip pre := by
  unfold parse_ipv4_cidr
  rw [h]

/-- Reduction of `cidrOfParts` once the prefix parse is known. -/
theorem cidrOfParts_some {ip pre : List Char} {p : Nat} (h : parseU8 ⟨pre⟩ = some p) :
    cidrOfParts ip pre =
      if p > 32 then none
      else some (⟨ip⟩,
        maskString (if p = 0 then 0 else ((2 ^ 32 - 1) <<< (32 - p)) % 2 ^ 32)) := by
  unfold cidrOfParts
  rw [h]

/-- C8: CIDR decomposition maps `192.168.50.7/24` to that address with mask
`255.255.255.0`; every slash-free, whitespace-free address with prefix `/0`
yields mask `0.0.0.0`; and any parsed prefix above 32 yields no result. -/
theorem cidr_decomposition :
    parse_ipv4_cidr "192.168.50.7/24" = some ("192.168.50.7", "255.255.255.0")
    ∧ (∀ addr : String, (∀ c ∈ addr.data, ¬ c = '/' ∧ c.isWhitespace = false) →
        parse_ipv4_cidr (addr ++ "/0") = some (addr, "0.0.0.0"))
    ∧ (∀ (addr pstr : String) (p : Nat),
        (∀ c ∈ addr.data, ¬ c = '/' ∧ c.isWhitespace = false) →
        parseU8 pstr = some p → 32 < p →
        parse_ipv4_cidr (addr ++ "/" ++ pstr) = none) := by
  refine ⟨by decide, ?_, ?_⟩
  · intro addr h
    have hd : (addr ++ "/0").data = addr.data ++ '/' :: ['0'] := rfl
    have htrim : trimChars (addr ++ "/0").data = addr.data ++ '/' :: ['0'] := by
      rw [hd]
      refine trimChars_no_ws _ (fun c hc => ?_)
      rcases List.mem_append.mp hc with h1 | h1
      · exact (h c h1).2
      · have h2 : c = '/' ∨ c = '0' := by simpa using h1
        rcases h2 with rfl | rfl <;> decide
    have hsplit : splitOnceSlash (trimChars (addr ++ "/0").data) = some (addr.data, ['0']) := by
      rw [htrim]
      exact splitOnceSlash_append _ _ (fun hm => (h '/' hm).1 rfl)
    rw [parse_ipv4_cidr_split hsplit,
      cidrOfParts_some (show parseU8 ⟨['0']⟩ = some 0 from by decide)]
    norm_num
    rw [show maskString 0 = "0.0.0.0" from by decide]
  · intro addr pstr p h hp hgt
    have hchars := parseU8_chars hp
    have hd : (addr ++ "/" ++ pstr).data = addr.data ++ '/' :: pstr.data := by
      show (addr.data ++ ['/']) ++ pstr.data = _
      simp
    have htrim : trimChars (addr ++ "/" ++ pstr).data = addr.data ++ '/' :: pstr.data := by
      rw [hd]
      refine trimChars_no_ws _ (fun c hc => ?_)
      rcases List.mem_append.mp hc with h1 | h1
      · exact (h c h1).2
      · rcases List.mem_cons.mp h1 with rfl | h2
        · decide
        · rcases hchars c h2 with rfl | hdig
          · decide
          · exact isDigit_not_ws hdig
    have hsplit : splitOnceSlash (trimChars (addr ++ "/" ++ pstr).data) =
        some (addr.data, pstr.data) := by
      rw [htrim]
      exact splitOnceSlash_append _ _ (fun hm => (h '/' hm).1 rfl)
    rw [parse_ipv4_cidr_split hsplit, cidrOfParts_some (show parseU8 ⟨pstr.data⟩ = some p from hp)]
    simp [hgt]

/-- Witness for C8 at `/0` and `/33`. -/
theorem cidr_decomposition_witness :
    parse_ipv4_cidr "10.20.30.40/0" = some ("10.20.30.40", "0.0.0.0")
    ∧ parse_ipv4_cidr "10.20.30.40/33" = none :=
  ⟨cidr_decomposition.2.1 "10.20.30.40" (by decide),
   cidr_decomposition.2.2 "10.20.30.40" "33" 33 (by decide) (by decide) (by decide)⟩

/-- One UTF-8 byte per character on the ASCII range. -/
theorem charBytes_eq_one {c : Char} (h : c.toNat ≤ 0x7F) : charBytes c = 1 := by
  simp [charBytes, h]

/-- Byte length equals character count for all-ASCII character lists. -/
theorem sum_charBytes_eq_length (l : List Char) (h : ∀ c ∈ l, c.toNat ≤ 0x7F) :
    (l.map charBytes).sum = l.length := by
  induction l with
  | nil => rfl
  | cons c cs ih =>
    have h1 := charBytes_eq_one (h c (List.mem_cons_self c cs))
    have h2 := ih (fun c hc => h c (List.mem_cons_of_mem _ hc))
    simp only [List.map_cons, List.sum_cons, h1, h2, List.length_cons]
    omega

/-- Byte length equals character count for all-ASCII strings. -/
theorem rustLen_eq_length {s : String} (h : ∀ c ∈ s.data, c.toNat ≤ 0x7F) :
    rustLen s = s.data.length :=
  sum_charBytes_eq_length s.data h

/-- Success of `validate` requires both field validators to succeed. -/
theorem validate_ok_parts {cfg : HotspotConfig} (h : validate cfg = .ok ()) :
    validate_ssid cfg = .ok () ∧ validate_password cfg = .ok () := by
  unfold validate at h
  cases hv : validate_ssid cfg with
  | error e => rw [hv] at h; exact absurd h (by simp)
  | ok u => cases u; exact ⟨rfl, by rw [hv] at h; exact h⟩

/-- C7: an SSID that is empty, longer than 32 bytes, or contains an ASCII
control character always fails validation; a 1-32 character printable-ASCII
SSID always passes the SSID validator (which never reads the password); a
non-empty password of byte length at most 7, or of length 64 and above,
always fails validation; an empty or 8-63 character printable-ASCII
password always passes the password validator. -/
theorem hotspot_config_validation :
    (∀ cfg : HotspotConfig,
       cfg.ssid.data = [] ∨ rustLen cfg.ssid > 32 ∨
         (∃ c ∈ cfg.ssid.data, rustIsAsciiControl c = true) →
       ¬ validate cfg = .ok ())
    ∧ (∀ cfg : HotspotConfig,
        ¬ cfg.ssid.data = [] → cfg.ssid.data.length ≤ 32 →
        (∀ c ∈ cfg.ssid.data, 0x20 ≤ c.toNat ∧ c.toNat ≤ 0x7E) →
        validate_ssid cfg = .ok ())
    ∧ (∀ cfg : HotspotConfig,
        (1 ≤ rustLen cfg.password ∧ rustLen cfg.password ≤ 7) ∨ 64 ≤ rustLen cfg.password →
        ¬ validate cfg = .ok ())
    ∧ (∀ cfg : HotspotConfig,
        cfg.password.data = [] ∨
          (8 ≤ cfg.password.data.length ∧ cfg.password.data.length ≤ 63 ∧
           ∀ c ∈ cfg.password.data, 0x20 ≤ c.toNat ∧ c.toNat ≤ 0x7E) →
        validate_password cfg = .ok ()) := by
  refine ⟨?_, ?_, ?_, ?_⟩
  · intro cfg hbad hok
    have hss := (validate_ok_parts hok).1
    unfold validate_ssid at hss
    rcases hbad with hb | hb | ⟨c, hc, hctl⟩
    · rw [if_pos (Or.inl hb)] at hss
      exact absurd hss (by simp)
    · rw [if_pos (Or.inr hb)] at hss
      exact absurd hss (by simp)
    · by_cases h1 : cfg.ssid.data = [] ∨ rustLen cfg.ssid > 32
      · rw [if_pos h1] at hss
        exact absurd hss (by simp)
      · rw [if_neg h1] at hss
        have hnall : ¬ (cfg.ssid.data.all
            (fun ch => rustIsAscii ch && !rustIsAsciiControl ch) = true) := by
          intro hall
          have := List.all_eq_true.mp hall c hc
          simp [hctl] at this
        rw [if_pos hnall] at hss
        exact absurd hss (by simp)
  · intro cfg hne hlen hpr
    have hascii : ∀ c ∈ cfg.ssid.data, c.toNat ≤ 0x7F := fun c hc => by
      have := (hpr c hc).2; omega
    unfold validate_ssid
    rw [if_neg (by
      rw [rustLen_eq_length hascii]
      push_neg
      exact ⟨hne, by omega⟩)]
    rw [if_neg (by
      intro hnall
      refine hnall ?_
      refine List.all_eq_true.mpr (fun c hc => ?_)
      have h1 := hpr c hc
      have h2 : rustIsAscii c = true := by simp [rustIsAscii]; omega
      have h3 : rustIsAsciiControl c = false := by
        simp only [rustIsAsciiControl]
        have : ¬ (c.toNat ≤ 0x1F) := by omega
        have : ¬ (c.toNat = 0x7F) := by omega
        simp [*]
      simp [h2, h3])]
  · intro cfg hbad hok
    have hpw := (validate_ok_parts hok).2
    unfold validate_password at hpw
    have hne : ¬ cfg.password.data = [] := by
      intro hd
      have : rustLen cfg.password = 0 := by
        show (cfg.password.data.map charBytes).sum = 0
        rw [hd]
        rfl
      omega
    rw [if_pos ⟨hne, by omega⟩] at hpw
    exact absurd hpw (by simp)
  · intro cfg hgood
    unfold validate_password
    rcases hgood with hb | ⟨h8, h63, hpr⟩
    · rw [if_neg (by simp [hb]), if_neg (by simp [hb])]
    · have hascii : ∀ c ∈ cfg.password.data, c.toNat ≤ 0x7F := fun c hc => by
        have := (hpr c hc).2; omega
      rw [if_neg (by
        rw [rustLen_eq_length hascii]
        rintro ⟨-, h⟩
        omega)]
      rw [if_neg (by
        intro hnall
        refine hnall ?_
        refine List.all_eq_true.mpr (fun c hc => ?_)
        have h1 := hpr c hc
        have h2 : rustIsAscii c = true := by simp [rustIsAscii]; omega
        have h3 : rustIsAsciiControl c = false := by
          simp only [rustIsAsciiControl]
          have : ¬ (c.toNat ≤ 0x1F) := by omega
          have : ¬ (c.toNat = 0x7F) := by omega
          simp [*]
        simp [h2, h3])]

/-- Case variance transports through the model of `to_lowercase`. -/
theorem lowerStr_congr {s t : String} (h : caseVariant s t) : lowerStr s = lowerStr t :=
  congrArg String.mk h

/-- C3 counterexample: the unknown-connection triage of `stop_hotspot` is
case-SENSITIVE — two delete responses differing only in letter case are
classified differently, so the claim that every classification is
case-insensitive fails on this call site. -/
theorem stop_hotspot_case_sensitive_cex :
    caseVariant "Error: unknown connection Hotspot" "ERROR: UNKNOWN CONNECTION Hotspot"
    ∧ (stop_hotspot ⟨[okOut, ⟨"", "Error: unknown connection Hotspot", false⟩], []⟩).1 = .ok ()
    ∧ (stop_hotspot ⟨[okOut, ⟨"", "ERROR: UNKNOWN CONNECTION Hotspot", false⟩], []⟩).1 =
        .error "Failed to delete hotspot: ERROR: UNKNOWN CONNECTION Hotspot" :=
  ⟨by unfold caseVariant; decide, by decide, by decide⟩

/-- C3 (amended): the five lower-casing classifiers (queued activation,
network not found, key-mgmt missing, connection interrupted, already-exists
on profile add) are invariant under any change of letter case; an
unclassified failure takes the fatal path (shown on the open-connect
orchestration); but the hotspot-delete triage matches the exact-case phrase
`Error: unknown connection` only. -/
theorem error_classification_case_insensitive :
    (∀ s t : String, caseVariant s t →
      is_activation_queued s = is_activation_queued t
      ∧ is_network_not_found_error s = is_network_not_found_error t
      ∧ is_key_mgmt_missing_error s = is_key_mgmt_missing_error t
      ∧ is_connection_interrupted_error s = is_connection_interrupted_error t
      ∧ is_already_exists_text s = is_already_exists_text t)
    ∧ (∀ (ssid : String) (out : Out) (rest : List Out) (tr : List (List String)),
        out.success = false →
        is_activation_queued (nmcli_error_text out) = false →
        is_connection_interrupted_error (nmcli_error_text out) = false →
        is_network_not_found_error (nmcli_error_text out) = false →
        (connect_open_network ssid ⟨out :: rest, tr⟩).1 =
          .error ("Failed to connect: " ++ nmcli_error_text out))
    ∧ (∀ (d out : Out) (rest : List Out) (tr : List (List String)),
        (stop_hotspot ⟨d :: out :: rest, tr⟩).1 =
          if out.success = false ∧ strContains out.stderr "Error: unknown connection" = false
          then .error ("Failed to delete hotspot: " ++ out.stderr)
          else .ok ()) := by
  refine ⟨?_, ?_, ?_⟩
  · intro s t h
    have hl := lowerStr_congr h
    refine ⟨?_, ?_, ?_, ?_, ?_⟩ <;>
      simp only [is_activation_queued, is_network_not_found_error, is_key_mgmt_missing_error,
        is_connection_interrupted_error, is_already_exists_text, hl]
  · intro ssid out rest tr hfail hq hi hn
    simp [connect_open_network, connect_open_network_once, run1, hfail, hq, hi, hn]
  · intro d out rest tr
    by_cases hc : out.success = false ∧ strContains out.stderr "Error: unknown connection" = false
    · simp [stop_hotspot, run1, hc]
    · simp only [stop_hotspot, run1]
      simp [hc]

/-- Witness for the amended C3 on concrete case-variant messages. -/
theorem error_classification_case_insensitive_witness :
    is_activation_queued "Error: Connection ACTIVATION WAS ENQUEUED" =
      is_activation_queued "error: connection activation was enqueued"
    ∧ (connect_open_network "Cafe"
        ⟨[⟨"", "Error: Secrets were required, but not provided.", false⟩], []⟩).1 =
      .error "Failed to connect: Error: Secrets were required, but not provided."
    ∧ (stop_hotspot ⟨[okOut, ⟨"", "Error: unknown connection Hotspot", false⟩], []⟩).1 = .ok () :=
  ⟨(error_classification_case_insensitive.1
      "Error: Connection ACTIVATION WAS ENQUEUED"
      "error: connection activation was enqueued" (by unfold caseVariant; decide)).1,
   (error_classification_case_insensitive.2.1 "Cafe" _ [] [] rfl (by decide) (by decide)
      (by decide)).trans (congrArg Except.error (by decide)),
   (error_classification_case_insensitive.2.2 okOut _ [] []).trans (by decide)⟩

/-- The fallback lease scan returns the parse of some listed file, or
nothing. -/
theorem leasesFromFallback_cases (fb : List String) :
    leasesFromFallback fb = [] ∨
      ∃ c ∈ fb, leasesFromFallback fb = parse_lease_content c := by
  induction fb with
  | nil => exact Or.inl rfl
  | cons c cs ih =>
    by_cases h : parse_lease_content c = []
    · rcases ih with h1 | ⟨c', hc', he⟩
      · exact Or.inl (by simp [leasesFromFallback, h, h1])
      · exact Or.inr ⟨c', List.mem_cons_of_mem _ hc', by simp [leasesFromFallback, h, he]⟩
    · exact Or.inr ⟨c, List.mem_cons_self c cs, by simp [leasesFromFallback, h]⟩

/-- C9 counterexample: two identical qualifying lease lines produce two
`ConnectedDevice` entries with the same identity (same MAC, same IP) — both
in `parse_lease_content` itself and in the full discovery call through the
lease-file fallback — so the returned list is not deduplicated. -/
theorem device_discovery_dedup_cex :
    (parse_lease_content
        "1700000000 aa:bb:cc:dd:ee:ff 192.168.50.12 myphone\n1700000000 aa:bb:cc:dd:ee:ff 192.168.50.12 myphone").map
        identityOf = ["aa:bb:cc:dd:ee:ff", "aa:bb:cc:dd:ee:ff"]
    ∧ ¬ ((get_connected_devices (fun _ => none) "" []
            ["1700000000 aa:bb:cc:dd:ee:ff 192.168.50.12 myphone\n1700000000 aa:bb:cc:dd:ee:ff 192.168.50.12 myphone"]).map
          identityOf).Nodup :=
  ⟨by decide, by decide⟩

/-- C9 (amended): every discovery result is drawn from a single source (the
ARP table, the NetworkManager lease files, one fallback lease file, or
nothing), with one device per qualifying row; the list therefore holds at
most one device per identity exactly when the qualifying rows of the chosen
source are pairwise identity-distinct — duplicate rows are not collapsed. -/
theorem device_discovery_single_source :
    (∀ (hostnameOf : String → Option String) (arp : String) (nm fb : List String),
      get_connected_devices hostnameOf arp nm fb = arpDevices hostnameOf arp
      ∨ get_connected_devices hostnameOf arp nm fb = (nm.map parse_lease_content).flatten
      ∨ (∃ c ∈ fb, get_connected_devices hostnameOf arp nm fb = parse_lease_content c)
      ∨ get_connected_devices hostnameOf arp nm fb = [])
    ∧ (∀ content : String,
        (rustLines content).Pairwise (fun l1 l2 =>
          ∀ d1 ∈ leaseLineDevice l1, ∀ d2 ∈ leaseLineDevice l2,
            identityOf d1 ≠ identityOf d2) →
        (parse_lease_content content).Pairwise (fun a b => identityOf a ≠ identityOf b))
    ∧ (∀ (hostnameOf : String → Option String) (s : String),
        (rustLines s).Pairwise (fun l1 l2 =>
          ∀ d1 ∈ arpLineDevice hostnameOf l1, ∀ d2 ∈ arpLineDevice hostnameOf l2,
            identityOf d1 ≠ identityOf d2) →
        (arpDevices hostnameOf s).Pairwise (fun a b => identityOf a ≠ identityOf b)) := by
  refine ⟨?_, ?_, ?_⟩
  · intro hostnameOf arp nm fb
    by_cases ha : arpDevices hostnameOf arp = []
    · by_cases hn : (nm.map parse_lease_content).flatten = []
      · rcases leasesFromFallback_cases fb with h1 | ⟨c, hc, he⟩
        · refine Or.inr (Or.inr (Or.inr ?_))
          simp [get_connected_devices, get_devices_from_leases, ha, hn, h1]
        · refine Or.inr (Or.inr (Or.inl ⟨c, hc, ?_⟩))
          simp [get_connected_devices, get_devices_from_leases, ha, hn, he]
      · refine Or.inr (Or.inl ?_)
        simp [get_connected_devices, get_devices_from_leases, ha, hn]
    · exact Or.inl (by simp [get_connected_devices, ha])
  · intro content h
    exact List.pairwise_filterMap.mpr h
  · intro hostnameOf s h
    exact List.pairwise_filterMap.mpr h

/-- Witness for the amended C9: identity-distinct lease rows do come out
deduplicated. -/
theorem device_discovery_single_source_witness :
    (parse_lease_content
        "1700000000 aa:bb:cc:dd:ee:ff 192.168.50.12 myphone\n1700000001 11:22:33:44:55:66 192.168.50.13 tv").Pairwise
      (fun a b => identityOf a ≠ identityOf b) :=
  device_discovery_single_source.2.1 _ (by decide)

/-- Adding a hotspot always issues the fast create command first. -/
theorem add_hotspot_trace (c : HotspotConfig) (i : String) (st : St) :
    ∃ Δ, ((add_hotspot c i st).2).trace = st.trace ++ hotspotFastArgs c i :: Δ := by
  unfold add_hotspot
  simp only [run1]
  split
  · split
    · exact ⟨[["connection", "modify", "Hotspot", "autoconnect", "no"],
              ["connection", "modify", "Hotspot", "wifi.hidden", "yes"]], by simp⟩
    · exact ⟨[["connection", "modify", "Hotspot", "autoconnect", "no"]], by simp⟩
  · split
    · exact ⟨[hotspotManualArgs c i], by simp⟩
    · exact ⟨[hotspotManualArgs c i], by simp⟩

/-- The active-state poll consumes one response and records one command. -/
theorem is_hotspot_active_state (st : St) :
    (is_hotspot_active st).2 =
      ⟨st.script.tail,
       st.trace ++ [["-t", "-f", "NAME,STATE", "connection", "show", "--active"]]⟩ := rfl

/-- Activation only appends to the trace. -/
theorem activate_hotspot_fast_trace (st : St) :
    ∃ Δ, ((activate_hotspot_fast st).2).trace = st.trace ++ Δ := by
  unfold activate_hotspot_fast is_hotspot_active
  simp only [run1]
  repeat' split
  all_goals exact ⟨_, by simp only [List.append_assoc]; rfl⟩

/-- The creation tail only appends to the trace. -/
theorem finishCreate_trace (r : Except String Unit × St) :
    ∃ Δ, ((finishCreate r).2).trace = (r.2).trace ++ Δ := by
  unfold finishCreate
  obtain ⟨res, st⟩ := r
  cases res with
  | error e => exact ⟨[], by simp⟩
  | ok u =>
    cases u
    unfold is_hotspot_active
    simp only [run1]
    repeat' split
    all_goals first
      | exact ⟨_, by simp only [List.append_assoc]; rfl⟩
      | (obtain ⟨ΔB, hB⟩ := activate_hotspot_fast_trace _
         exact ⟨_, by rw [hB]; simp only [List.append_assoc]; rfl⟩)

/-- The first seven commands of a `create_hotspot_on` run that finds a
pre-existing `Hotspot` profile: the four read-only queries, the best-effort
deactivate, the profile delete, then the first create command. -/
theorem create_hotspot_trace_shape (config : HotspotConfig) (iface : String)
    (devStatus act1 act2 nameList downR delR : Out) (rest : List Out)
    (hv : validate config = .ok ())
    (hdev : checkDeviceLines iface (rustLines devStatus.stdout) = .ok ())
    (ha1 : act1.stdout = "") (ha2 : act2.stdout = "")
    (hex : (rustLines nameList.stdout).any (fun l => trimStr l = "Hotspot") = true) :
    ∃ Δ, ((create_hotspot_on config iface
        ⟨devStatus :: act1 :: act2 :: nameList :: downR :: delR :: rest, []⟩).2).trace =
      ["-t", "-f", "DEVICE,TYPE", "device", "status"] ::
      ["-t", "-f", "NAME,DEVICE,TYPE", "connection", "show", "--active"] ::
      ["-t", "-f", "NAME,TYPE", "connection", "show", "--active"] ::
      ["-t", "-f", "NAME", "connection", "show"] ::
      ["connection", "down", "Hotspot"] ::
      deleteHotspotCmd ::
      hotspotFastArgs config iface :: Δ := by
  have hlines : rustLines "" = [] := rfl
  have h1 : check_device_exists iface
      ⟨devStatus :: act1 :: act2 :: nameList :: downR :: delR :: rest, []⟩ =
      (.ok (), ⟨act1 :: act2 :: nameList :: downR :: delR :: rest,
        [["-t", "-f", "DEVICE,TYPE", "device", "status"]]⟩) := by
    simp [check_device_exists, run1, hdev]
  have h2 : disconnect_wifi_on_interface iface
      ⟨act1 :: act2 :: nameList :: downR :: delR :: rest,
        [["-t", "-f", "DEVICE,TYPE", "device", "status"]]⟩ =
      ⟨act2 :: nameList :: downR :: delR :: rest,
        [["-t", "-f", "DEVICE,TYPE", "device", "status"],
         ["-t", "-f", "NAME,DEVICE,TYPE", "connection", "show", "--active"]]⟩ := by
    simp [disconnect_wifi_on_interface, run1, ha1, hlines]
  have h3 : cleanup_shared_connections
      ⟨act2 :: nameList :: downR :: delR :: rest,
        [["-t", "-f", "DEVICE,TYPE", "device", "status"],
         ["-t", "-f", "NAME,DEVICE,TYPE", "connection", "show", "--active"]]⟩ =
      ⟨nameList :: downR :: delR :: rest,
        [["-t", "-f", "DEVICE,TYPE", "device", "status"],
         ["-t", "-f", "NAME,DEVICE,TYPE", "connection", "show", "--active"],
         ["-t", "-f", "NAME,TYPE", "connection", "show", "--active"]]⟩ := by
    simp [cleanup_shared_connections, run1, ha2, hlines]
  have h4 : hotspot_connection_exists
      ⟨nameList :: downR :: delR :: rest,
        [["-t", "-f", "DEVICE,TYPE", "device", "status"],
         ["-t", "-f", "NAME,DEVICE,TYPE", "connection", "show", "--active"],
         ["-t", "-f", "NAME,TYPE", "connection", "show", "--active"]]⟩ =
      (true, ⟨downR :: delR :: rest,
        [["-t", "-f", "DEVICE,TYPE", "device", "status"],
         ["-t", "-f", "NAME,DEVICE,TYPE", "connection", "show", "--active"],
         ["-t", "-f", "NAME,TYPE", "connection", "show", "--active"],
         ["-t", "-f", "NAME", "connection", "show"]]⟩) := by
    simp [hotspot_connection_exists, run1, hex]
  have h5 : (stop_hotspot ⟨downR :: delR :: rest,
        [["-t", "-f", "DEVICE,TYPE", "device", "status"],
         ["-t", "-f", "NAME,DEVICE,TYPE", "connection", "show", "--active"],
         ["-t", "-f", "NAME,TYPE", "connection", "show", "--active"],
         ["-t", "-f", "NAME", "connection", "show"]]⟩).2 =
      ⟨rest,
        [["-t", "-f", "DEVICE,TYPE", "device", "status"],
         ["-t", "-f", "NAME,DEVICE,TYPE", "connection", "show", "--active"],
         ["-t", "-f", "NAME,TYPE", "connection", "show", "--active"],
         ["-t", "-f", "NAME", "connection", "show"],
         ["connection", "down", "Hotspot"],
         ["connection", "delete", "Hotspot"]]⟩ := by
    unfold stop_hotspot
    simp only [run1]
    split <;> simp
  obtain ⟨ΔA, hA⟩ := add_hotspot_trace config iface
      ⟨rest,
        [["-t", "-f", "DEVICE,TYPE", "device", "status"],
         ["-t", "-f", "NAME,DEVICE,TYPE", "connection", "show", "--active"],
         ["-t", "-f", "NAME,TYPE", "connection", "show", "--active"],
         ["-t", "-f", "NAME", "connection", "show"],
         ["connection", "down", "Hotspot"],
         ["connection", "delete", "Hotspot"]]⟩
  obtain ⟨ΔF, hF⟩ := finishCreate_trace (add_hotspot config iface
      ⟨rest,
        [["-t", "-f", "DEVICE,TYPE", "device", "status"],
         ["-t", "-f", "NAME,DEVICE,TYPE", "connection", "show", "--active"],
         ["-t", "-f", "NAME,TYPE", "connection", "show", "--active"],
         ["-t", "-f", "NAME", "connection", "show"],
         ["connection", "down", "Hotspot"],
         ["connection", "delete", "Hotspot"]]⟩)
  unfold create_hotspot_on
  rw [hv]
  simp only [h1, h2, h3, h4, h5, if_true]
  refine ⟨ΔA ++ ΔF, ?_⟩
  rw [hF, hA]
  simp [deleteHotspotCmd]

/-- C6: whenever `create_hotspot_on` runs against an executor reporting that
a `Hotspot` profile already exists, the command trace carries the profile
delete at position 5, before the first create command at position 6, and
every create command ever issued is preceded by that delete. -/
theorem hotspot_delete_before_create (config : HotspotConfig) (iface : String)
    (devStatus act1 act2 nameList downR delR : Out) (rest : List Out)
    (hv : validate config = .ok ())
    (hdev : checkDeviceLines iface (rustLines devStatus.stdout) = .ok ())
    (ha1 : act1.stdout = "") (ha2 : act2.stdout = "")
    (hex : (rustLines nameList.stdout).any (fun l => trimStr l = "Hotspot") = true) :
    (((create_hotspot_on config iface
        ⟨devStatus :: act1 :: act2 :: nameList :: downR :: delR :: rest, []⟩).2).trace.take 7 =
      [["-t", "-f", "DEVICE,TYPE", "device", "status"],
       ["-t", "-f", "NAME,DEVICE,TYPE", "connection", "show", "--active"],
       ["-t", "-f", "NAME,TYPE", "connection", "show", "--active"],
       ["-t", "-f", "NAME", "connection", "show"],
       ["connection", "down", "Hotspot"],
       deleteHotspotCmd,
       hotspotFastArgs config iface])
    ∧ ∀ (j : Nat) (args : List String),
        ((create_hotspot_on config iface
          ⟨devStatus :: act1 :: act2 :: nameList :: downR :: delR :: rest, []⟩).2).trace.get? j =
            some args →
        isCreateCmd args = true →
        ∃ i, i < j ∧
          ((create_hotspot_on config iface
            ⟨devStatus :: act1 :: act2 :: nameList :: downR :: delR :: rest, []⟩).2).trace.get? i =
              some deleteHotspotCmd := by
  obtain ⟨Δ, hΔ⟩ := create_hotspot_trace_shape config iface devStatus act1 act2 nameList
    downR delR rest hv hdev ha1 ha2 hex
  rw [hΔ]
  constructor
  · simp [List.take]
  · intro j args hj hcr
    rcases j with _ | _ | _ | _ | _ | _ | _ | j
    · simp [List.get?] at hj
      rw [← hj] at hcr
      exact absurd hcr (by decide)
    · simp [List.get?] at hj
      rw [← hj] at hcr
      exact absurd hcr (by decide)
    · simp [List.get?] at hj
      rw [← hj] at hcr
      exact absurd hcr (by decide)
    · simp [List.get?] at hj
      rw [← hj] at hcr
      exact absurd hcr (by decide)
    · simp [List.get?] at hj
      rw [← hj] at hcr
      exact absurd hcr (by decide)
    · simp [List.get?, deleteHotspotCmd] at hj
      rw [← hj] at hcr
      exact absurd hcr (by decide)
    · exact ⟨5, by omega, by simp [List.get?]⟩
    · exact ⟨5, by omega, by simp [List.get?]⟩

/-- Witness for C6: the delete of the stale profile is issued strictly
before the create on a concrete executor script where the profile exists. -/
theorem hotspot_delete_before_create_witness :
    (((create_hotspot_on ⟨"TestNetwork", "password123", "2.4 GHz", "Auto", false⟩ "wlan0"
        ⟨[⟨"wlan0:wifi\n", "", true⟩, okOut, okOut, ⟨"Hotspot\n", "", true⟩, okOut, okOut],
         []⟩).2).trace.take 7 =
      [["-t", "-f", "DEVICE,TYPE", "device", "status"],
       ["-t", "-f", "NAME,DEVICE,TYPE", "connection", "show", "--active"],
       ["-t", "-f", "NAME,TYPE", "connection", "show", "--active"],
       ["-t", "-f", "NAME", "connection", "show"],
       ["connection", "down", "Hotspot"],
       ["connection", "delete", "Hotspot"],
       ["dev", "wifi", "hotspot", "ifname", "wlan0", "con-name", "Hotspot",
        "ssid", "TestNetwork", "password", "password123", "band", "bg"]]) :=
  (hotspot_delete_before_create ⟨"TestNetwork", "password123", "2.4 GHz", "Auto", false⟩
      "wlan0" ⟨"wlan0:wifi\n", "", true⟩ okOut okOut ⟨"Hotspot\n", "", true⟩ okOut okOut []
      (by decide) (by decide) rfl rfl (by decide)).1.trans (by decide)

/-- Witness for C7 on concrete configurations. -/
theorem hotspot_config_validation_witness :
    validate_ssid ⟨"TestNetwork", "password123", "2.4 GHz", "Auto", false⟩ = .ok ()
    ∧ ¬ validate ⟨"TestNetwork", "short", "2.4 GHz", "Auto", false⟩ = .ok ()
    ∧ ¬ validate ⟨"", "password123", "2.4 GHz", "Auto", false⟩ = .ok ()
    ∧ validate_password ⟨"OpenNetwork", "", "2.4 GHz", "Auto", false⟩ = .ok () :=
  ⟨hotspot_config_validation.2.1 _ (by decide) (by decide) (by decide),
   hotspot_config_validation.2.2.1 _ (by decide),
   hotspot_config_validation.1 _ (by decide),
   hotspot_config_validation.2.2.2 _ (by decide)⟩

/-- The kept entry after a merge is the new row or the old entry. -/
theorem mergeNet_eq_or (e n : WifiNetwork) :
    mergeNet (some e) n = n ∨ mergeNet (some e) n = e := by
  simp only [mergeNet]
  split_ifs <;> simp

theorem domRel_refl (a : WifiNetwork) : domRel a a := ⟨id, fun _ => le_refl _⟩

theorem domRel_trans {a b c : WifiNetwork} (h1 : domRel a b) (h2 : domRel b c) :
    domRel a c := by
  refine ⟨fun h => h2.1 (h1.1 h), fun hc => ?_⟩
  have hb : b.connected = false := by
    cases hbc : b.connected
    · rfl
    · have := h2.1 hbc
      rw [this] at hc
      cases hc
  exact le_trans (h1.2 hb) (h2.2 hc)

/-- The old kept entry is dominated by the merge result. -/
theorem domRel_mergeNet_left (e n : WifiNetwork) : domRel e (mergeNet (some e) n) := by
  unfold domRel
  simp only [mergeNet]
  split_ifs with h1 h2
  · simp only [Bool.and_eq_true, Bool.not_eq_true'] at h1
    constructor
    · intro he; rw [h1.2] at he; cases he
    · intro hn; rw [h1.1] at hn; cases hn
  · simp only [Bool.and_eq_true, decide_eq_true_eq] at h2
    exact ⟨fun he => by rw [h2.1]; exact he, fun _ => le_of_lt h2.2⟩
  · exact domRel_refl e

/-- The new row is dominated by the merge result. -/
theorem domRel_mergeNet_right (e n : WifiNetwork) : domRel n (mergeNet (some e) n) := by
  unfold domRel
  simp only [mergeNet]
  split_ifs with h1 h2
  · exact domRel_refl n
  · exact domRel_refl n
  · simp only [Bool.and_eq_true, Bool.not_eq_true', not_and, decide_eq_true_eq] at h1 h2
    constructor
    · intro hn
      cases he : e.connected
      · exact absurd he (h1 hn)
      · rfl
    · intro he
      have hn : n.connected = false := by
        cases hn : n.connected
        · rfl
        · exact absurd he (h1 hn)
      have hle : ¬ e.signal < n.signal := fun hlt => h2 (by rw [hn, he]) hlt
      omega

/-- Keys of the map after an upsert. -/
theorem upsert_map_fst (m : List ((String × String) × WifiNetwork)) (n : WifiNetwork) :
    (upsert m n).map Prod.fst =
      if netKey n ∈ m.map Prod.fst then m.map Prod.fst
      else m.map Prod.fst ++ [netKey n] := by
  induction m with
  | nil => simp [upsert]
  | cons p rest ih =>
    obtain ⟨k, e⟩ := p
    by_cases hk : k = netKey n
    · subst hk
      simp [upsert]
    · simp only [upsert, if_neg hk, List.map_cons, ih]
      by_cases hm : netKey n ∈ rest.map Prod.fst
      · simp [hm, List.mem_cons, Ne.symm hk]
      · simp [hm, List.mem_cons, Ne.symm hk]

/-- Upserting keeps the keys duplicate-free. -/
theorem nodup_fst_upsert (m : List ((String × String) × WifiNetwork)) (n : WifiNetwork)
    (h : (m.map Prod.fst).Nodup) : ((upsert m n).map Prod.fst).Nodup := by
  rw [upsert_map_fst]
  split
  · exact h
  · rename_i hmem
    rw [List.nodup_append]
    exact ⟨h, List.nodup_singleton _,
      fun a ha hax => hmem (by simp at hax; exact hax ▸ ha)⟩

theorem nodup_fst_foldl (ns : List WifiNetwork) :
    ∀ m, (m.map Prod.fst).Nodup → ((ns.foldl upsert m).map Prod.fst).Nodup := by
  induction ns with
  | nil => exact fun m h => h
  | cons n ns ih => exact fun m h => ih _ (nodup_fst_upsert m n h)

/-- Entries after an upsert come from the map or are the keyed new row. -/
theorem upsert_mem {p : (String × String) × WifiNetwork}
    (m : List ((String × String) × WifiNetwork)) (n : WifiNetwork)
    (h : p ∈ upsert m n) : p ∈ m ∨ p = (netKey n, n) := by
  induction m with
  | nil =>
    simp only [upsert] at h
    rcases List.mem_singleton.mp h with rfl
    exact Or.inr rfl
  | cons q rest ih =>
    obtain ⟨k, e⟩ := q
    by_cases hk : k = netKey n
    · rw [upsert, if_pos hk] at h
      rcases List.mem_cons.mp h with rfl | h1
      · rcases mergeNet_eq_or e n with hm | hm
        · rw [hm, hk]
          exact Or.inr rfl
        · rw [hm]
          exact Or.inl (List.mem_cons_self _ _)
      · exact Or.inl (List.mem_cons_of_mem _ h1)
    · rw [upsert, if_neg hk] at h
      rcases List.mem_cons.mp h with rfl | h1
      · exact Or.inl (List.mem_cons_self _ _)
      · rcases ih h1 with h2 | h2
        · exact Or.inl (List.mem_cons_of_mem _ h2)
        · exact Or.inr h2

/-- Values of the fold are input rows (or initial entries). -/
theorem foldl_upsert_mem {p : (String × String) × WifiNetwork} (ns : List WifiNetwork) :
    ∀ m, p ∈ ns.foldl upsert m → p ∈ m ∨ p.2 ∈ ns := by
  induction ns with
  | nil => exact fun m h => Or.inl h
  | cons n ns ih =>
    intro m h
    rcases ih _ h with h1 | h1
    · rcases upsert_mem m n h1 with h2 | h2
      · exact Or.inl h2
      · right
        rw [h2]
        exact List.mem_cons_self _ _
    · exact Or.inr (List.mem_cons_of_mem _ h1)

/-- Each stored entry sits under its own (SSID, band) key. -/
theorem foldl_upsert_keyconsistent (ns : List WifiNetwork) :
    ∀ m, (∀ p ∈ m, p.1 = netKey p.2) →
      ∀ p ∈ ns.foldl upsert m, p.1 = netKey p.2 := by
  induction ns with
  | nil => exact fun m h => h
  | cons n ns ih =>
    intro m h
    refine ih _ ?_
    intro p hp
    rcases upsert_mem m n hp with h1 | h1
    · exact h p h1
    · rw [h1]

/-- Lookup through an upsert: the matching key's entry is merged, all other
keys are untouched. -/
theorem lookupKey_upsert (m : List ((String × String) × WifiNetwork)) (n : WifiNetwork)
    (k : String × String) :
    lookupKey (upsert m n) k =
      if k = netKey n then some (mergeNet (lookupKey m k) n) else lookupKey m k := by
  induction m with
  | nil =>
    by_cases hk : k = netKey n
    · simp [upsert, lookupKey, hk, mergeNet]
    · simp [upsert, lookupKey, hk, Ne.symm hk]
  | cons q rest ih =>
    obtain ⟨k', e⟩ := q
    by_cases hkk : k' = k
    · subst hkk
      by_cases hk' : k' = netKey n
      · simp [upsert, lookupKey, hk']
      · simp [upsert, lookupKey, hk']
    · by_cases hk' : k' = netKey n
      · simp [upsert, lookupKey, hk', hkk,
          show ¬ k = netKey n from fun h => hkk (hk'.trans h.symm),
          show ¬ netKey n = k from fun h => hkk (hk'.trans h)]
      · simp [upsert, lookupKey, hk', hkk, ih]

/-- Lookup after the whole fold is the per-key accumulator. -/
theorem lookupKey_foldl (ns : List WifiNetwork) :
    ∀ (m : List ((String × String) × WifiNetwork)) (k : String × String),
      lookupKey (ns.foldl upsert m) k = keyAcc k (lookupKey m k) ns := by
  induction ns with
  | nil => exact fun m k => rfl
  | cons n ns ih =>
    intro m k
    show lookupKey (ns.foldl upsert (upsert m n)) k = keyAcc k (lookupKey m k) (n :: ns)
    rw [ih, lookupKey_upsert]
    rfl

theorem lookupKey_mem {m : List ((String × String) × WifiNetwork)}
    {k : String × String} {e : WifiNetwork} (h : lookupKey m k = some e) : (k, e) ∈ m := by
  induction m with
  | nil => simp [lookupKey] at h
  | cons q rest ih =>
    obtain ⟨k', e'⟩ := q
    simp only [lookupKey] at h
    split at h
    · rename_i hk
      subst hk
      obtain rfl := Option.some.inj h
      exact List.mem_cons_self _ _
    · exact List.mem_cons_of_mem _ (ih h)

/-- A key that already holds an entry keeps holding one. -/
theorem keyAcc_some (k : String × String) (ns : List WifiNetwork) :
    ∀ x, ∃ e, keyAcc k (some x) ns = some e := by
  induction ns with
  | nil => exact fun x => ⟨x, rfl⟩
  | cons n ns ih =>
    intro x
    show ∃ e, keyAcc k (if k = netKey n then some (mergeNet (some x) n) else some x) ns = some e
    by_cases hk : k = netKey n
    · rw [if_pos hk]; exact ih _
    · rw [if_neg hk]; exact ih x

/-- An absent key means no processed row carried it. -/
theorem keyAcc_none_imp (k : String × String) (ns : List WifiNetwork) :
    ∀ acc, keyAcc k acc ns = none → ∀ n ∈ ns, ¬ netKey n = k := by
  induction ns with
  | nil => intro acc h n hn; cases hn
  | cons n ns ih =>
    intro acc h n' hn'
    have h' : keyAcc k (if k = netKey n then some (mergeNet acc n) else acc) ns = none := h
    rcases List.mem_cons.mp hn' with rfl | h1
    · intro hkey
      rw [if_pos hkey.symm] at h'
      obtain ⟨e, he⟩ := keyAcc_some k ns (mergeNet acc n')
      rw [he] at h'
      cases h'
    · exact ih _ h' n' h1

/-- The replacement policy of the fold: the kept entry for a key is one of
the processed rows with that key and dominates every one of them. -/
theorem keyAcc_spec (k : String × String) (ns : List WifiNetwork) :
    ∀ (acc : Option WifiNetwork) (e : WifiNetwork),
      keyAcc k acc ns = some e →
      (∀ e₀, acc = some e₀ → domRel e₀ e ∧ (e = e₀ ∨ ∃ n ∈ ns, netKey n = k ∧ e = n))
      ∧ (acc = none → ∃ n ∈ ns, netKey n = k ∧ e = n)
      ∧ (∀ n ∈ ns, netKey n = k → domRel n e) := by
  induction ns with
  | nil =>
    intro acc e h
    refine ⟨?_, ?_, ?_⟩
    · intro e₀ hacc
      rw [hacc] at h
      obtain rfl := Option.some.inj h
      exact ⟨domRel_refl _, Or.inl rfl⟩
    · intro hacc
      rw [hacc] at h
      cases h
    · intro n hn; cases hn
  | cons n ns ih =>
    intro acc e h
    have h' : keyAcc k (if k = netKey n then some (mergeNet acc n) else acc) ns = some e := h
    by_cases hk : k = netKey n
    · rw [if_pos hk] at h'
      have spec := ih (some (mergeNet acc n)) e h'
      have hRme : domRel (mergeNet acc n) e := (spec.1 (mergeNet acc n) rfl).1
      have hor := (spec.1 (mergeNet acc n) rfl).2
      refine ⟨?_, ?_, ?_⟩
      · intro e₀ hacc
        rw [hacc] at hRme hor
        constructor
        · exact domRel_trans (domRel_mergeNet_left e₀ n) hRme
        · rcases hor with h2 | ⟨n', hn', hkey, he⟩
          · rcases mergeNet_eq_or e₀ n with hm | hm
            · exact Or.inr ⟨n, List.mem_cons_self _ _, hk.symm, h2.trans hm⟩
            · exact Or.inl (h2.trans hm)
          · exact Or.inr ⟨n', List.mem_cons_of_mem _ hn', hkey, he⟩
      · intro hacc
        rw [hacc] at hor
        rw [show mergeNet none n = n from rfl] at hor
        rcases hor with h2 | ⟨n', hn', hkey, he⟩
        · exact ⟨n, List.mem_cons_self _ _, hk.symm, h2⟩
        · exact ⟨n', List.mem_cons_of_mem _ hn', hkey, he⟩
      · intro n' hn' hkey
        rcases List.mem_cons.mp hn' with rfl | h1
        · refine domRel_trans ?_ hRme
          cases acc with
          | none => exact domRel_refl n'
          | some e₀ => exact domRel_mergeNet_right e₀ n'
        · exact spec.2.2 n' h1 hkey
    · rw [if_neg hk] at h'
      have spec := ih acc e h'
      refine ⟨?_, ?_, ?_⟩
      · intro e₀ hacc
        obtain ⟨hR, hor⟩ := spec.1 e₀ hacc
        refine ⟨hR, ?_⟩
        rcases hor with h2 | ⟨n', hn', hkey, he⟩
        · exact Or.inl h2
        · exact Or.inr ⟨n', List.mem_cons_of_mem _ hn', hkey, he⟩
      · intro hacc
        obtain ⟨n', hn', hkey, he⟩ := spec.2.1 hacc
        exact ⟨n', List.mem_cons_of_mem _ hn', hkey, he⟩
      · intro n' hn' hkey
        rcases List.mem_cons.mp hn' with rfl | h1
        · exact absurd hkey.symm hk
        · exact spec.2.2 n' h1 hkey

/-- The sort comparator is transitive. -/
theorem netLE_trans (a b c : WifiNetwork) (h1 : netLE a b) (h2 : netLE b c) :
    netLE a c := by
  unfold netLE at *
  cases ha : a.connected <;> cases hb : b.connected <;> cases hc : c.connected <;>
    simp_all <;> omega

/-- The sort comparator is total. -/
theorem netLE_total (a b : WifiNetwork) : netLE a b || netLE b a := by
  unfold netLE
  cases ha : a.connected <;> cases hb : b.connected <;> simp_all <;> omega

/-- What the comparator guarantees pairwise: connected-first, then
descending signal within a connectivity class. -/
theorem netLE_dom {a b : WifiNetwork} (h : netLE a b = true) :
    (b.connected = true → a.connected = true)
    ∧ (a.connected = b.connected → b.signal ≤ a.signal) := by
  unfold netLE at h
  cases ha : a.connected <;> cases hb : b.connected <;> simp_all

/-- C1: the reconciled, sorted output of `scan_networks` holds at most one
network per (SSID, band) key; every output row is an input row; every input
row's key is represented by a kept row that is connected if the input row
was, has at least its signal when the kept row is not connected, and has at
least its signal whenever no duplicate of that key was connected; and the
output places connected entries before non-connected ones with descending
signal inside each group. -/
theorem scan_networks_reconciliation (txt : String) :
    (scan_networks txt).Pairwise (fun a b => netKey a ≠ netKey b)
    ∧ (∀ e ∈ scan_networks txt, e ∈ parsedRows txt)
    ∧ (∀ n ∈ parsedRows txt, ∃ e ∈ scan_networks txt,
        netKey e = netKey n ∧
        (n.connected = true → e.connected = true) ∧
        (e.connected = false → n.signal ≤ e.signal) ∧
        ((∀ d ∈ parsedRows txt, netKey d = netKey n → d.connected = false) →
          n.signal ≤ e.signal))
    ∧ (scan_networks txt).Pairwise (fun a b =>
        (b.connected = true → a.connected = true) ∧
        (a.connected = b.connected → b.signal ≤ a.signal)) := by
  have hperm : List.Perm ((((parsedRows txt).foldl upsert []).map Prod.snd).mergeSort netLE)
      (((parsedRows txt).foldl upsert []).map Prod.snd) := List.mergeSort_perm _ _
  have hconsist : ∀ p ∈ (parsedRows txt).foldl upsert [], p.1 = netKey p.2 :=
    foldl_upsert_keyconsistent _ _ (by simp)
  have hnodup : (((parsedRows txt).foldl upsert []).map Prod.fst).Nodup :=
    nodup_fst_foldl _ _ (by simp)
  refine ⟨?_, ?_, ?_, ?_⟩
  · have h1 : ((parsedRows txt).foldl upsert []).Pairwise (fun p q => p.1 ≠ q.1) := by
      have hp : (((parsedRows txt).foldl upsert []).map Prod.fst).Pairwise (· ≠ ·) := hnodup
      rw [List.pairwise_map] at hp
      exact hp
    have hpair : (((parsedRows txt).foldl upsert []).map Prod.snd).Pairwise
        (fun a b => netKey a ≠ netKey b) := by
      rw [List.pairwise_map]
      refine h1.imp_of_mem ?_
      intro p q hp hq hne
      rw [hconsist p hp, hconsist q hq] at hne
      exact hne
    exact (List.Perm.pairwise_iff (by intro x y h; exact Ne.symm h) hperm).mpr hpair
  · intro e he
    have he' : e ∈ ((parsedRows txt).foldl upsert []).map Prod.snd :=
      List.mem_mergeSort.mp he
    obtain ⟨p, hp, hpe⟩ := List.mem_map.mp he'
    rcases foldl_upsert_mem _ _ hp with h1 | h1
    · cases h1
    · rw [← hpe]
      exact h1
  · intro n hn
    have hlookup := lookupKey_foldl (parsedRows txt) [] (netKey n)
    rw [show lookupKey ([] : List ((String × String) × WifiNetwork)) (netKey n) = none
      from rfl] at hlookup
    cases hacc : keyAcc (netKey n) none (parsedRows txt) with
    | none => exact absurd rfl (keyAcc_none_imp _ _ _ hacc n hn)
    | some e =>
      rw [hacc] at hlookup
      have hmem := lookupKey_mem hlookup
      have he_out : e ∈ scan_networks txt :=
        List.mem_mergeSort.mpr (List.mem_map.mpr ⟨(netKey n, e), hmem, rfl⟩)
      have spec := keyAcc_spec (netKey n) (parsedRows txt) none e hacc
      have hkey : netKey e = netKey n := (hconsist (netKey n, e) hmem).symm
      have hdom := spec.2.2 n hn rfl
      refine ⟨e, he_out, hkey, hdom.1, hdom.2, ?_⟩
      intro hall
      obtain ⟨d, hd, hdkey, hde⟩ := spec.2.1 rfl
      have hec : e.connected = false := by
        rw [hde]
        exact hall d hd hdkey
      exact hdom.2 hec
  · have hsorted : ((((parsedRows txt).foldl upsert []).map Prod.snd).mergeSort
        netLE).Pairwise (fun a b => netLE a b = true) :=
      List.sorted_mergeSort (fun a b c => netLE_trans a b c) netLE_total _
    exact hsorted.imp (fun h => netLE_dom h)

/-- Witness for C1: two duplicate rows of one (SSID, band), the weaker one
connected — the kept row is the connected one. -/
theorem scan_networks_reconciliation_witness :
    ∃ e ∈ scan_networks "alpha:70:WPA2:no:6:2437\nalpha:50:WPA2:yes:6:2437",
      netKey e = ("alpha", "2.4 GHz") ∧ e.connected = true := by
  obtain ⟨e, he, hk, hc, -, -⟩ :=
    (scan_networks_reconciliation "alpha:70:WPA2:no:6:2437\nalpha:50:WPA2:yes:6:2437").2.2.1
      ⟨"alpha", 50, true, true, "2.4 GHz", 6, 2437, "WPA2"⟩ (by decide)
  exact ⟨e, he, hk.trans (by decide), hc rfl⟩

/-- C2: per-row processing of `scan_networks` — a row with an empty SSID is
skipped entirely; otherwise the band is classified from the parsed
frequency (2400-2500 → 2.4 GHz, 4900-5900 → 5 GHz, 5925-7125 → 6 GHz, else
Unknown) and the security type by substring precedence WPA3 > WPA2 > WPA >
WEP, then `Secured` for a non-empty field other than `--`, else `Open`. -/
theorem scan_row_classification
    (freq_str channel_str active_str security signal_str ssid : String) :
    (ssid = "" → processRow freq_str channel_str active_str security signal_str ssid = none)
    ∧ (¬ ssid = "" →
        ∃ n, processRow freq_str channel_str active_str security signal_str ssid = some n
          ∧ n.ssid = ssid
          ∧ n.freq_mhz = parse_u32_from_str freq_str
          ∧ n.band =
              (if 2400 ≤ parse_u32_from_str freq_str ∧ parse_u32_from_str freq_str ≤ 2500
               then "2.4 GHz"
               else if 4900 ≤ parse_u32_from_str freq_str ∧ parse_u32_from_str freq_str ≤ 5900
               then "5 GHz"
               else if 5925 ≤ parse_u32_from_str freq_str ∧ parse_u32_from_str freq_str ≤ 7125
               then "6 GHz"
               else "Unknown")
          ∧ n.security_type =
              (if strContains security "WPA3" = true then "WPA3"
               else if strContains security "WPA2" = true then "WPA2"
               else if strContains security "WPA" = true then "WPA"
               else if strContains security "WEP" = true then "WEP"
               else if ¬ security.data = [] ∧ ¬ security = "--" then "Secured"
               else "Open")) := by
  constructor
  · intro h
    have hd : ssid.data = [] := by rw [h]
    simp [processRow, hd]
  · intro h
    have hd : ¬ ssid.data = [] := by
      intro hh
      refine h ?_
      cases ssid with
      | mk d => cases hh; rfl
    simp only [processRow, if_neg hd]
    refine ⟨_, rfl, rfl, rfl, rfl, ?_⟩
    have hsec : ((!security.data.isEmpty && security != "--") = true) ↔
        (¬ security.data = [] ∧ ¬ security = "--") := by
      simp [List.isEmpty_iff]
    refine if_congr Iff.rfl rfl ?_
    refine if_congr Iff.rfl rfl ?_
    refine if_congr Iff.rfl rfl ?_
    refine if_congr Iff.rfl rfl ?_
    exact if_congr hsec rfl rfl

/-- Witness for C2: a concrete row of each kind — empty SSID skipped,
5 GHz band, WPA2 precedence over WPA. -/
theorem scan_row_classification_witness :
    processRow "5180" "40" "no" "WPA1 WPA2" "70" "" = none
    ∧ ∃ n, processRow "5180" "40" "no" "WPA1 WPA2" "70" "Cafe" = some n
        ∧ n.band = "5 GHz" ∧ n.security_type = "WPA2" := by
  constructor
  · exact (scan_row_classification "5180" "40" "no" "WPA1 WPA2" "70" "").1 rfl
  · obtain ⟨n, hn, -, -, hband, hsec⟩ :=
      (scan_row_classification "5180" "40" "no" "WPA1 WPA2" "70" "Cafe").2 (by decide)
    exact ⟨n, hn, hband.trans (by decide), hsec.trans (by decide)⟩

end AdwNetwork
